import Mathlib

/-!
Verification development for the llm-lsp completion core.

The TypeScript sources are shallowly embedded: JavaScript strings are
modelled as Lean `String`s viewed as sequences of characters (JS string
indices become character indices), tree-sitter syntax nodes become the
inductive `SNode` (type tag, named flag, field label, character span, row
and column span, ordered children), and the two external text-generation
calls are modelled as oracles supplied as parameters.

The repository contains three revisions of the parser module and two of
the server module; they are embedded in separate namespaces:
`Batch` for the whole-document classifier (`findIncompletePatterns`),
`Gate` for the point-query completion gate (`parseForCompletion` /
`shouldSkipCompletion`), `Fallback` for the regex-based text-only
classifier (`regexParse` / `checkIncompleteLine`) and `Server` for the
merge step (`processCompletion` / `fetchFormattingCompletion`).
-/

/-- Whitespace test mirroring the JavaScript regex class backslash-s
(restricted to its common ASCII members). -/
def isWS (c : Char) : Bool :=
  c = ' ' || c = '\t' || c = '\n' || c = '\r' || c = '\x0b' || c = '\x0c'

/-- Word-character test mirroring the JavaScript regex class backslash-w:
ASCII letters, digits and underscore. -/
def isWordChar (c : Char) : Bool :=
  c.isAlphanum || c = '_'

/-- JS `s.trim()`: strip leading and trailing whitespace. -/
def jsTrim (s : String) : String :=
  (((s.toList.dropWhile isWS).reverse.dropWhile isWS).reverse).asString

/-- One step of splitting a character list at a separator character. -/
def splitChar (sep : Char) : List Char → List (List Char)
  | [] => [[]]
  | c :: cs =>
    let r := splitChar sep cs
    if c = sep then [] :: r
    else
      match r with
      | h :: t => (c :: h) :: t
      | [] => [[c]]

/-- JS `text.split('\n')`. -/
def jsSplitLines (s : String) : List String :=
  (splitChar '\n' s.toList).map List.asString

/-- JS `s.substring(0, n)`. -/
def takeChars (n : Nat) (s : String) : String :=
  (s.toList.take n).asString

/-- JS `s.substring(n)`. -/
def dropChars (n : Nat) (s : String) : String :=
  (s.toList.drop n).asString

/-- JS `text.substring(a, b)` for `a ≤ b`. -/
def substrChars (s : String) (a b : Nat) : String :=
  ((s.toList.drop a).take (b - a)).asString

/-- JS `s[i]`: the character at index `i`, if any. -/
def charAt? (s : String) (i : Nat) : Option Char :=
  s.toList.get? i

/-- JS `s.includes(c)` for a single-character needle. -/
def jsIncludesChar (s : String) (c : Char) : Bool :=
  s.toList.contains c

/-- JS `s.startsWith(p)`. -/
def jsStartsWith (s p : String) : Bool :=
  p.toList.isPrefixOf s.toList

/-- JS `s.endsWith(p)`. -/
def jsEndsWith (s p : String) : Bool :=
  p.toList.reverse.isPrefixOf s.toList.reverse

/-- Whether `needle` occurs as a contiguous subsequence of the list. -/
def containsSeq (needle : List Char) : List Char → Bool
  | [] => needle.isEmpty
  | c :: cs => needle.isPrefixOf (c :: cs) || containsSeq needle cs

/-- Case-insensitive substring test (the needle is given in upper case),
used for the JS regex alternation TODO-FIXME-IMPLEMENT with the i flag. -/
def icontains (s w : String) : Bool :=
  containsSeq w.toList (s.toList.map Char.toUpper)

/-- The test of the JS regex TODO-or-FIXME-or-IMPLEMENT with the i flag. -/
def todoRe (s : String) : Bool :=
  icontains s "TODO" || icontains s "FIXME" || icontains s "IMPLEMENT"

/-- A row and column pair, as in tree-sitter's `startPosition` and
`endPosition`. -/
structure Point where
  row : Nat
  column : Nat
deriving DecidableEq

/-- A cursor position as delivered by the language-server protocol. -/
structure Position where
  line : Nat
  character : Nat
deriving DecidableEq

/-- A tree-sitter syntax node: type tag, named flag, the field label this
node occupies in its parent (for `childForFieldName`), the character span
`startIndex`-`endIndex` into the document text, the row and column span,
and the ordered children. -/
inductive SNode where
  | mk (ty : String) (named : Bool) (fld : Option String)
       (startIndex endIndex : Nat) (startPosition endPosition : Point)
       (children : List SNode)

/-- Node type tag (`node.type`). -/
def SNode.type : SNode → String
  | .mk t _ _ _ _ _ _ _ => t

/-- Named flag (`node.isNamed`). -/
def SNode.isNamed : SNode → Bool
  | .mk _ nm _ _ _ _ _ _ => nm

/-- Field label this node occupies in its parent, if any. -/
def SNode.fieldName : SNode → Option String
  | .mk _ _ f _ _ _ _ _ => f

/-- Character index of the node's start (`node.startIndex`). -/
def SNode.startIndex : SNode → Nat
  | .mk _ _ _ si _ _ _ _ => si

/-- Character index one past the node's end (`node.endIndex`). -/
def SNode.endIndex : SNode → Nat
  | .mk _ _ _ _ ei _ _ _ => ei

/-- Start row and column (`node.startPosition`). -/
def SNode.startPosition : SNode → Point
  | .mk _ _ _ _ _ sp _ _ => sp

/-- End row and column (`node.endPosition`). -/
def SNode.endPosition : SNode → Point
  | .mk _ _ _ _ _ _ ep _ => ep

/-- Ordered children (`node.children`). -/
def SNode.children : SNode → List SNode
  | .mk _ _ _ _ _ _ _ cs => cs

/-- `node.childForFieldName(f)`: the first child carrying field label `f`. -/
def childForFieldName (n : SNode) (f : String) : Option SNode :=
  n.children.find? (fun c => c.fieldName = some f)

mutual
/-- All nodes of the tree in pre-order (the order `walkTree` visits them). -/
def allNodes : SNode → List SNode
  | .mk t nm f si ei sp ep cs => .mk t nm f si ei sp ep cs :: allNodesList cs
/-- All nodes of a forest in pre-order. -/
def allNodesList : List SNode → List SNode
  | [] => []
  | c :: cs => allNodes c ++ allNodesList cs
end

/-- The `type` tags of the classifier's `IncompleteLine` records. -/
inductive IncompleteKind where
  | prompt
  | function_declaration
  | control_flow
  | assignment
  | block_start
  | empty_body
  | todo_comment
deriving DecidableEq

/-- The classifier's `IncompleteLine` record (the batch revision and the
regex fallback revision share this interface). -/
structure IncompleteLine where
  line : Nat
  type : IncompleteKind
  content : String
  prompt : Option String
  context : String
deriving DecidableEq

namespace Batch

/-- The batch classifier's `isFunctionNode` (per-language switch). -/
def isFunctionNode (n : SNode) (languageId : String) : Bool :=
  if languageId = "javascript" || languageId = "javascriptreact" ||
     languageId = "typescript" || languageId = "typescriptreact" then
    n.type = "function_declaration" || n.type = "method_definition" ||
    n.type = "arrow_function" || n.type = "function_expression"
  else if languageId = "python" then
    n.type = "function_definition"
  else if languageId = "go" then
    n.type = "function_declaration" || n.type = "method_declaration"
  else if languageId = "rust" then
    n.type = "function_item"
  else if languageId = "java" then
    n.type = "method_declaration"
  else if languageId = "c" || languageId = "cpp" then
    n.type = "function_definition"
  else
    false

/-- The batch classifier's `getFunctionBody`: the `body` field child, or
else the first child of the per-language body-container type. -/
def getFunctionBody (n : SNode) (languageId : String) : Option SNode :=
  if languageId = "javascript" || languageId = "javascriptreact" ||
     languageId = "typescript" || languageId = "typescriptreact" then
    (childForFieldName n "body").orElse
      (fun _ => n.children.find? (fun c => c.type = "statement_block"))
  else if languageId = "python" || languageId = "go" || languageId = "rust" ||
          languageId = "java" then
    (childForFieldName n "body").orElse
      (fun _ => n.children.find? (fun c => c.type = "block"))
  else if languageId = "c" || languageId = "cpp" then
    (childForFieldName n "body").orElse
      (fun _ => n.children.find? (fun c => c.type = "compound_statement"))
  else
    none

/-- The test of the JS regex caret-brace-whitespace-brace-dollar: an
opening brace, whitespace only, a closing brace. -/
def emptyBracePairRe (s : String) : Bool :=
  match s.toList with
  | '{' :: rest => rest.length ≥ 1 && rest.getLast? = some '}' && rest.dropLast.all isWS
  | _ => false

/-- The batch classifier's `isEmptyBody`.  Note the final filter keeps
children that are NOT named (the gate revision keeps the named ones). -/
def isEmptyBody (body : SNode) (text : String) : Bool :=
  let bodyText := jsTrim (substrChars text body.startIndex body.endIndex)
  if bodyText = "\x7b\x7d" || emptyBracePairRe bodyText then
    true
  else if bodyText = "pass" || bodyText = ":" then
    true
  else
    (body.children.filter (fun child =>
      child.type ≠ "\x7b" && child.type ≠ "\x7d" && child.type ≠ "comment" &&
      !child.isNamed)).length = 0

/-- The batch classifier's `isControlFlowNode` (the language argument is
unused in the source). -/
def isControlFlowNode (n : SNode) (_languageId : String) : Bool :=
  ["if_statement", "for_statement", "while_statement", "do_statement",
   "switch_statement", "for_in_statement", "for_of_statement",
   "try_statement"].contains n.type

/-- The batch classifier's `hasControlFlowBody`. -/
def hasControlFlowBody (n : SNode) (_languageId : String) : Bool :=
  (((childForFieldName n "body").orElse
      (fun _ => childForFieldName n "consequence")).orElse
    (fun _ => n.children.find? (fun c =>
      c.type = "statement_block" || c.type = "block"))).isSome

/-- The batch classifier's `isIncompleteAssignment` (the node text is
`text.substring(node.startIndex, node.endIndex)` in the source and is
passed in already extracted here). -/
def isIncompleteAssignment (n : SNode) (nodeText : String) : Bool :=
  (n.type = "variable_declarator" || n.type = "assignment_expression") &&
  jsEndsWith (jsTrim nodeText) "="

/-- The batch classifier's `getContext`: ten lines before and after,
clipped to the document. -/
def getContext (lines : List String) (lineIndex : Nat) : String :=
  let s := lineIndex - 10
  let e := min (lines.length - 1) (lineIndex + 10)
  String.intercalate "\n" ((lines.drop s).take (e + 1 - s))

/-- The natural-language-prompt check of `findIncompletePatterns`, applied
to one node's text (`lines.getD` stands for the JS index read, which in
the source can yield undefined for an out-of-range row). -/
def promptCheckNode (nodeText : String) (startLine : Nat) (lines : List String) :
    List IncompleteLine :=
  if jsIncludesChar nodeText '#' && !(jsStartsWith (jsTrim nodeText) "#") then
    match nodeText.toList.findIdx? (fun c => c = '#') with
    | some h =>
      let afterHash := jsTrim (dropChars (h + 1) nodeText)
      if afterHash.length > 0 then
        [⟨startLine, .prompt, lines.getD startLine "", some afterHash,
          getContext lines startLine⟩]
      else []
    | none => []
  else []

/-- The TODO-comment check of `findIncompletePatterns` for one node. -/
def todoCheckNode (ty : String) (nodeText : String) (startLine : Nat)
    (lines : List String) : List IncompleteLine :=
  if ty = "comment" && todoRe nodeText then
    [⟨startLine, .todo_comment, lines.getD startLine "", none,
      getContext lines startLine⟩]
  else []

/-- The interior blank-line scan of the empty-body check: the source loops
`for (line = bodyStartLine; line <= bodyEndLine; line++)` and stops at the
first row whose text exists and trims to the empty string. -/
def firstBlankRow (lines : List String) (a b : Nat) : Option Nat :=
  (List.range' a (b + 1 - a)).find? (fun l =>
    (lines.get? l).any (fun s => jsTrim s = ""))

/-- The empty-function-body check of `findIncompletePatterns` for one node. -/
def emptyBodyCheckNode (text : String) (lines : List String)
    (languageId : String) (n : SNode) : List IncompleteLine :=
  if isFunctionNode n languageId then
    match getFunctionBody n languageId with
    | some body =>
      if isEmptyBody body text then
        match firstBlankRow lines body.startPosition.row body.endPosition.row with
        | some l =>
          [⟨l, .empty_body, lines.getD l "", none, getContext lines l⟩]
        | none => []
      else []
    | none => []
  else []

/-- The dangling-control-flow check of `findIncompletePatterns` for one node. -/
def controlFlowCheckNode (languageId : String) (n : SNode) (startLine : Nat)
    (lines : List String) : List IncompleteLine :=
  if isControlFlowNode n languageId && !hasControlFlowBody n languageId then
    [⟨startLine, .control_flow, lines.getD startLine "", none,
      getContext lines startLine⟩]
  else []

/-- The incomplete-assignment check of `findIncompletePatterns` for one node. -/
def assignmentCheckNode (languageId : String) (n : SNode) (nodeText : String)
    (startLine : Nat) (lines : List String) : List IncompleteLine :=
  let _ := languageId
  if isIncompleteAssignment n nodeText then
    [⟨startLine, .assignment, lines.getD startLine "", none,
      getContext lines startLine⟩]
  else []

/-- The body of the `walkTree` callback of `findIncompletePatterns`: all
five checks are evaluated for the visited node, in source order, each
contributing its sites independently. -/
def nodeChecks (text : String) (lines : List String) (languageId : String)
    (n : SNode) : List IncompleteLine :=
  let startLine := n.startPosition.row
  let nodeText := substrChars text n.startIndex n.endIndex
  promptCheckNode nodeText startLine lines ++
  todoCheckNode n.type nodeText startLine lines ++
  emptyBodyCheckNode text lines languageId n ++
  controlFlowCheckNode languageId n startLine lines ++
  assignmentCheckNode languageId n nodeText startLine lines

mutual
/-- Pre-order accumulation of `nodeChecks` over the tree, as performed by
`walkTree` pushing into the `suggestions` array. -/
def collectSites (text : String) (lines : List String) (languageId : String) :
    SNode → List IncompleteLine
  | .mk t nm f si ei sp ep cs =>
    nodeChecks text lines languageId (.mk t nm f si ei sp ep cs) ++
    collectSitesList text lines languageId cs
/-- Pre-order accumulation over a forest of children. -/
def collectSitesList (text : String) (lines : List String) (languageId : String) :
    List SNode → List IncompleteLine
  | [] => []
  | c :: cs =>
    collectSites text lines languageId c ++ collectSitesList text lines languageId cs
end

/-- The batch classifier's `findIncompletePatterns`. -/
def findIncompletePatterns (root : SNode) (text : String) (languageId : String) :
    List IncompleteLine :=
  collectSites text (jsSplitLines text) languageId root

/-- The language identifiers registered in the parser's language map. -/
def supportedLanguages : List String :=
  ["javascript", "typescript", "typescriptreact", "javascriptreact",
   "python", "go", "rust", "java", "c", "cpp"]

/-- The batch classifier's `ParseResult`. -/
structure ParseResult where
  incompleteSuggestions : List IncompleteLine
deriving DecidableEq

/-- The batch `parse` entry point.  The tree produced by the external
tree-sitter parser is passed in as `root`; for an unregistered language the
source returns the empty suggestion list before any parsing happens, so
`root` is unused there. -/
def parse (root : SNode) (text : String) (languageId : String) : ParseResult :=
  if !(supportedLanguages.contains languageId) then
    { incompleteSuggestions := [] }
  else
    { incompleteSuggestions := findIncompletePatterns root text languageId }

end Batch

namespace Gate

/-- The gate revision's `isFunctionNode` (one language-independent list). -/
def isFunctionNode (n : SNode) : Bool :=
  ["function_declaration", "function_expression", "arrow_function",
   "method_definition", "function_definition", "function_item",
   "method_declaration"].contains n.type

/-- The gate revision's `getFunctionBody`: the `body` field child, or else
the first child typed `statement_block`, `block` or `compound_statement`. -/
def getFunctionBody (n : SNode) : Option SNode :=
  (childForFieldName n "body").orElse
    (fun _ => n.children.find? (fun c =>
      c.type = "statement_block" || c.type = "block" ||
      c.type = "compound_statement"))

/-- The gate revision's `isEmptyBody`.  Identical to the batch revision
except that the final filter keeps the NAMED non-brace non-comment
children. -/
def isEmptyBody (body : SNode) (text : String) : Bool :=
  let bodyText := jsTrim (substrChars text body.startIndex body.endIndex)
  if bodyText = "\x7b\x7d" || Batch.emptyBracePairRe bodyText then
    true
  else if bodyText = "pass" || bodyText = ":" then
    true
  else
    (body.children.filter (fun child =>
      child.type ≠ "\x7b" && child.type ≠ "\x7d" && child.type ≠ "comment" &&
      child.isNamed)).length = 0

/-- The gate revision's `hasFunctionBody`. -/
def hasFunctionBody (n : SNode) (text : String) : Bool :=
  match getFunctionBody n with
  | some body => !isEmptyBody body text
  | none => false

mutual
/-- The gate's `getNodeAtPosition`, returning the found node together with
its chain of ancestors (the found node first, the root last); the source
returns only the node and walks `parent` links afterwards, which in a tree
is exactly this chain. -/
def getPath (pos : Position) : SNode → Option (List SNode)
  | .mk t nm f si ei sp ep cs =>
    if sp.row ≤ pos.line ∧ pos.line ≤ ep.row then
      match getPathList pos cs with
      | some p => some (p ++ [.mk t nm f si ei sp ep cs])
      | none =>
        if sp.row = pos.line ∧ pos.character < sp.column then none
        else if ep.row = pos.line ∧ ep.column < pos.character then none
        else some [.mk t nm f si ei sp ep cs]
    else none
/-- First matching child, in order, as the source's for-loop over children. -/
def getPathList (pos : Position) : List SNode → Option (List SNode)
  | [] => none
  | c :: cs =>
    match getPath pos c with
    | some p => some p
    | none => getPathList pos cs
end

/-- The node found by `getNodeAtPosition` (head of the path). -/
def getNodeAtPosition (root : SNode) (pos : Position) : Option SNode :=
  (getPath pos root).bind List.head?

mutual
/-- The gate's `getNodeAtLine`: pre-order first node starting at the row. -/
def getNodeAtLine (line : Nat) : SNode → Option SNode
  | .mk t nm f si ei sp ep cs =>
    if sp.row = line then some (.mk t nm f si ei sp ep cs)
    else getNodeAtLineList line cs
/-- First matching child, in order. -/
def getNodeAtLineList (line : Nat) : List SNode → Option SNode
  | [] => none
  | c :: cs =>
    match getNodeAtLine line c with
    | some m => some m
    | none => getNodeAtLineList line cs
end

/-- The gate's `isCompleteStatement`. -/
def isCompleteStatement (n : SNode) (text : String) (pos : Position) : Bool :=
  let completeTypes := ["expression_statement", "return_statement",
    "throw_statement", "break_statement", "continue_statement",
    "debugger_statement"]
  let nodeText := substrChars text n.startIndex n.endIndex
  let trimmedText := jsTrim nodeText
  (completeTypes.contains n.type &&
    (jsEndsWith trimmedText ";" || trimmedText.length ≤ pos.character)) ||
  (isFunctionNode n && hasFunctionBody n text) ||
  ((n.type = "variable_declaration" || n.type = "lexical_declaration") &&
    !jsEndsWith (jsTrim (substrChars text n.startIndex n.endIndex)) "=")

/-- The gate's `isInsideEmptyFunctionBody`: walk the node and then its
ancestor chain upward, returning true as soon as SOME function-like node
with an empty body is met. -/
def isInsideEmptyFunctionBody (text : String) (path : List SNode) : Bool :=
  path.any (fun current =>
    isFunctionNode current &&
    (match getFunctionBody current with
     | some body => isEmptyBody body text
     | none => false))

/-- The character-before-the-cursor word test of the mid-word check.  In
the source `beforeCursor[position.character - 1]` can be undefined, and
the JS regex test coerces undefined to the string "undefined", which
contains word characters, hence the `none` branch yields true. -/
def charBeforeIsWord (line : String) (pos : Position) : Bool :=
  match charAt? (takeChars pos.character line) (pos.character - 1) with
  | some c => isWordChar c
  | none => true

/-- The character-at-the-cursor word test (`line[position.character] || ''`
never matches when the cursor is past the end of the line). -/
def charAfterIsWord (line : String) (pos : Position) : Bool :=
  match charAt? line pos.character with
  | some c => isWordChar c
  | none => false

/-- The gate's `shouldSkipCompletion`, rule for rule in source order. -/
def shouldSkipCompletion (root : SNode) (text : String) (pos : Position)
    (lines : List String) : Bool :=
  let line := lines.getD pos.line ""
  let beforeCursor := takeChars pos.character line
  let trimmedBefore := jsTrim beforeCursor
  if trimmedBefore = "" then
    match getPath pos root with
    | some path => if isInsideEmptyFunctionBody text path then false else true
    | none => true
  else if !(jsIncludesChar beforeCursor '#') && pos.character > 0 &&
          charBeforeIsWord line pos && charAfterIsWord line pos then
    true
  else if (getNodeAtLine pos.line root).any
            (fun n => isCompleteStatement n text pos) then
    true
  else
    match getNodeAtPosition root pos with
    | some n =>
      if n.type = "string" || n.type = "string_literal" then true
      else if n.type = "comment" && !todoRe line then true
      else false
    | none => false

/-- The gate revision's `ParseResult`. -/
structure ParseResult where
  shouldSuggest : Bool
  incompleteLine : Option (Nat × String × String)
deriving DecidableEq

/-- The gate revision's `getContext` returns the empty string. -/
def getContext (_lines : List String) (_lineIndex : Nat) : String := ""

/-- The gate's `parseForCompletion` entry point.  The tree produced by the
external tree-sitter parser is passed in as `root`; for an unregistered
language the source answers before any parsing happens, so `root` is
unused there.  The `incompleteLine` triple is (line, content, context);
its `type` field is the constant string "incomplete" in the source. -/
def parseForCompletion (root : SNode) (text : String) (languageId : String)
    (pos : Position) : ParseResult :=
  let lines := jsSplitLines text
  if !(Batch.supportedLanguages.contains languageId) then
    { shouldSuggest := true,
      incompleteLine := some (pos.line, lines.getD pos.line "",
        getContext lines pos.line) }
  else if shouldSkipCompletion root text pos lines then
    { shouldSuggest := false, incompleteLine := none }
  else
    { shouldSuggest := true,
      incompleteLine := some (pos.line, lines.getD pos.line "",
        getContext lines pos.line) }

end Gate

namespace Fallback

/-- Match a string literal at the head of the input, returning the rest. -/
def litP (w : String) (l : List Char) : Option (List Char) :=
  if w.toList.isPrefixOf l then some (l.drop w.length) else none

/-- Regex piece backslash-s-plus: at least one whitespace character. -/
def wsPlus (l : List Char) : Option (List Char) :=
  match l with
  | c :: cs => if isWS c then some ((c :: cs).dropWhile isWS) else none
  | [] => none

/-- Whether the regex matches at some start position (JS `test` without an
anchor): try the predicate at every suffix. -/
def existsSuffix (p : List Char → Bool) : List Char → Bool
  | [] => p []
  | c :: cs => p (c :: cs) || existsSuffix p cs

/-- Marker followed by optional whitespace and one of the six literal
TODO-FIXME-IMPLEMENT words (upper or lower case, as in the source regex). -/
def todoWordAfter (marker : String) (l : List Char) : Bool :=
  (litP marker l).any (fun r =>
    ["TODO", "FIXME", "IMPLEMENT", "todo", "fixme", "implement"].any
      (fun w => w.toList.isPrefixOf (r.dropWhile isWS)))

/-- The test of the JS regex slash-slash optional-whitespace TODO words. -/
def reTodoSlash (line : String) : Bool :=
  existsSuffix (todoWordAfter "//") line.toList

/-- The test of the JS regex hash optional-whitespace TODO words. -/
def reTodoHash (line : String) : Bool :=
  existsSuffix (todoWordAfter "#") line.toList

/-- Keyword, then at least one whitespace, then at least one word
character (the shape caret-ws-star KEYWORD ws-plus w-plus, applied after
the leading whitespace has been dropped). -/
def kwWsPlusWord (kw : String) (l : List Char) : Bool :=
  ((litP kw l).bind wsPlus).any (fun r => r.head?.any isWordChar)

/-- Word characters then optional whitespace then an opening parenthesis
(the regex tail w-plus ws-star open-paren). -/
def tailWordParen (l : List Char) : Bool :=
  match l with
  | c :: _ => isWordChar c &&
      ((l.dropWhile isWordChar).dropWhile isWS).head? = some '('
  | [] => false

/-- JS-family pattern: caret ws-star optional async-ws function ws w-plus. -/
def patFnKeyword (line : String) : Bool :=
  let r := line.toList.dropWhile isWS
  kwWsPlusWord "function" r ||
  (((litP "async" r).bind wsPlus).any (kwWsPlusWord "function"))

/-- JS-family pattern: caret ws-star const-let-var ws w-plus ws-star equals
ws-star optional async-ws-star open-paren. -/
def patVarArrow (line : String) : Bool :=
  let r := line.toList.dropWhile isWS
  ["const", "let", "var"].any (fun kw =>
    ((litP kw r).bind wsPlus).any (fun r1 =>
      match r1 with
      | c :: _ =>
        isWordChar c &&
        (match (r1.dropWhile isWordChar).dropWhile isWS with
         | '=' :: r3 =>
           let r4 := r3.dropWhile isWS
           r4.head? = some '(' ||
           ((litP "async" r4).map (fun r5 => r5.dropWhile isWS)).any
             (fun r5 => r5.head? = some '(')
         | _ => false)
      | [] => false))

/-- The modifier-then-optional-whitespace candidates of a pattern of the
shape optional-modifier ws-star rest: the input with no modifier consumed,
plus the input after each modifier that matches, whitespace dropped. -/
def modifierCandidates (mods : List String) (r : List Char) : List (List Char) :=
  (r :: mods.filterMap (fun kw => litP kw r)).map (fun l => l.dropWhile isWS)

/-- JS-family pattern: caret ws-star optional-access-modifier ws-star
optional async-ws w-plus ws-star open-paren. -/
def patMethod (line : String) : Bool :=
  let r := line.toList.dropWhile isWS
  (modifierCandidates ["private", "public", "protected", "static"] r).any
    (fun c1 =>
      tailWordParen c1 || (((litP "async" c1).bind wsPlus).any tailWordParen))

/-- JS-family pattern: caret ws-star w-plus ws-star colon ws-star optional
async-ws-star open-paren. -/
def patPropArrow (line : String) : Bool :=
  let r := line.toList.dropWhile isWS
  match r with
  | c :: _ =>
    isWordChar c &&
    (match (r.dropWhile isWordChar).dropWhile isWS with
     | ':' :: r2 =>
       let r3 := r2.dropWhile isWS
       r3.head? = some '(' ||
       ((litP "async" r3).map (fun r4 => r4.dropWhile isWS)).any
         (fun r4 => r4.head? = some '(')
     | _ => false)
  | [] => false

/-- Python patterns. -/
def patPyDef (line : String) : Bool :=
  kwWsPlusWord "def" (line.toList.dropWhile isWS)

/-- Python async def pattern. -/
def patPyAsyncDef (line : String) : Bool :=
  (((litP "async" (line.toList.dropWhile isWS)).bind wsPlus).any
    (kwWsPlusWord "def"))

/-- Python class pattern. -/
def patPyClass (line : String) : Bool :=
  kwWsPlusWord "class" (line.toList.dropWhile isWS)

/-- Go receiver group: open-paren w-plus ws-plus optional-star w-plus
close-paren ws-plus, followed by a word character. -/
def goReceiver (l : List Char) : Bool :=
  match l with
  | '(' :: a =>
    (match a with
     | c :: _ =>
       isWordChar c &&
       ((wsPlus (a.dropWhile isWordChar)).any (fun cw =>
         let d := if cw.head? = some '*' then cw.drop 1 else cw
         match d with
         | e :: _ =>
           isWordChar e &&
           (match d.dropWhile isWordChar with
            | ')' :: g => (wsPlus g).any (fun h => h.head?.any isWordChar)
            | _ => false)
         | [] => false))
     | [] => false)
  | _ => false

/-- Go pattern: caret ws-star func ws-plus optional-receiver w-plus. -/
def patGoFunc (line : String) : Bool :=
  ((litP "func" (line.toList.dropWhile isWS)).bind wsPlus).any (fun r1 =>
    r1.head?.any isWordChar || goReceiver r1)

/-- Rust pattern: caret ws-star optional pub-ws optional async-ws fn ws
w-plus. -/
def patRustFn (line : String) : Bool :=
  let r := line.toList.dropWhile isWS
  let cands0 := r :: ((litP "pub" r).bind wsPlus).toList
  let cands := cands0.flatMap (fun c => c :: ((litP "async" c).bind wsPlus).toList)
  cands.any (kwWsPlusWord "fn")

/-- Rust pattern: caret ws-star impl ws-plus. -/
def patRustImpl (line : String) : Bool :=
  ((litP "impl" (line.toList.dropWhile isWS)).bind wsPlus).isSome

/-- Java pattern tail: w-plus ws-plus w-plus ws-star open-paren. -/
def tailJava (l : List Char) : Bool :=
  match l with
  | c :: _ =>
    isWordChar c &&
    ((wsPlus (l.dropWhile isWordChar)).any tailWordParen)
  | [] => false

/-- Java pattern: caret ws-star optional-access-modifier ws-star w-plus
ws-plus w-plus ws-star open-paren. -/
def patJavaMethod (line : String) : Bool :=
  (modifierCandidates ["public", "private", "protected", "static"]
    (line.toList.dropWhile isWS)).any tailJava

/-- Default pattern: caret ws-star function-def-func-fn ws-plus w-plus. -/
def patDefault (line : String) : Bool :=
  ["function", "def", "func", "fn"].any
    (fun kw => kwWsPlusWord kw (line.toList.dropWhile isWS))

/-- The fallback classifier's `getFunctionPatterns` switch. -/
def getFunctionPatterns (languageId : String) : List (String → Bool) :=
  if languageId = "typescript" || languageId = "javascript" ||
     languageId = "typescriptreact" || languageId = "javascriptreact" then
    [patFnKeyword, patVarArrow, patMethod, patPropArrow]
  else if languageId = "python" then
    [patPyDef, patPyAsyncDef, patPyClass]
  else if languageId = "go" then
    [patGoFunc]
  else if languageId = "rust" then
    [patRustFn, patRustImpl]
  else if languageId = "java" then
    [patJavaMethod]
  else
    [patDefault]

/-- The test of the JS regex caret-ws-star if-for-while-switch-try-catch-else
ws-star open-paren. -/
def reCtrl (line : String) : Bool :=
  let r := line.toList.dropWhile isWS
  ["if", "for", "while", "switch", "try", "catch", "else"].any (fun w =>
    (litP w r).any (fun r1 => (r1.dropWhile isWS).head? = some '('))

/-- The test of the JS regex equals ws-star dollar: an equals sign followed
only by whitespace up to the end. -/
def reAssignEnd (s : String) : Bool :=
  (s.toList.reverse.dropWhile isWS).head? = some '='

/-- The test of the JS regex open-paren-or-brace ws-star dollar. -/
def reBlockStart (s : String) : Bool :=
  let r := s.toList.reverse.dropWhile isWS
  r.head? = some '(' || r.head? = some '{'

/-- Tail of the aggregate pattern: dot-star open-brace ws-star dollar (some
opening brace is followed only by whitespace up to the end). -/
def tailBraceWs (l : List Char) : Bool :=
  (l.reverse.dropWhile isWS).head? = some '{'

/-- The test of the JS regex caret ws-star class-interface-struct-enum
ws-plus w-plus dot-star open-brace ws-star dollar. -/
def reAgg (line : String) : Bool :=
  let r := line.toList.dropWhile isWS
  ["class", "interface", "struct", "enum"].any (fun w =>
    (litP w r).any (fun r1 =>
      (wsPlus r1).any (fun r2 =>
        match r2 with
        | c :: rest => isWordChar c && tailBraceWs rest
        | [] => false)))

/-- The fallback classifier's `getContext`: ten lines before and three
after, clipped to the document. -/
def getContext (lines : List String) (lineIndex : Nat) : String :=
  let s := lineIndex - 10
  let e := min lines.length (lineIndex + 3)
  String.intercalate "\n" ((lines.drop s).take (e - s))

/-- JS `lines[lineIndex + 1]?.trim() || ''`. -/
def nextLineTrimmed (lines : List String) (lineIndex : Nat) : String :=
  ((lines.get? (lineIndex + 1)).map jsTrim).getD ""

/-- The natural-language-prompt step of `checkIncompleteLine` (returns
none both when the guard fails and when the text after the marker is empty,
in which case the source falls through to the remaining patterns). -/
def promptSiteOf (line : String) (lineIndex : Nat) (lines : List String) :
    Option IncompleteLine :=
  if jsIncludesChar line '#' && !(jsStartsWith (jsTrim line) "#") then
    match line.toList.findIdx? (fun c => c = '#') with
    | some h =>
      let afterHash := jsTrim (dropChars (h + 1) line)
      if afterHash.length > 0 then
        some ⟨lineIndex, .prompt, line, some afterHash, getContext lines lineIndex⟩
      else none
    | none => none
  else none

/-- The function-declaration-without-body step of `checkIncompleteLine`. -/
def funcDeclSite (line : String) (lines : List String) (lineIndex : Nat)
    (languageId : String) : Option IncompleteLine :=
  if (getFunctionPatterns languageId).any (fun p => p line) &&
     !(jsIncludesChar line '{') &&
     !(jsStartsWith (nextLineTrimmed lines lineIndex) "\x7b") then
    some ⟨lineIndex, .function_declaration, line, none, getContext lines lineIndex⟩
  else none

/-- The control-flow-without-body step of `checkIncompleteLine`. -/
def ctrlSite (line : String) (lines : List String) (lineIndex : Nat) :
    Option IncompleteLine :=
  if reCtrl line && !(jsIncludesChar line '{') &&
     !(jsStartsWith (nextLineTrimmed lines lineIndex) "\x7b") then
    some ⟨lineIndex, .control_flow, line, none, getContext lines lineIndex⟩
  else none

/-- The assignment-without-value step of `checkIncompleteLine`. -/
def assignSite (line trimmed : String) (lines : List String) (lineIndex : Nat) :
    Option IncompleteLine :=
  if reAssignEnd trimmed then
    some ⟨lineIndex, .assignment, line, none, getContext lines lineIndex⟩
  else none

/-- The open-brace-or-paren-at-end step of `checkIncompleteLine`. -/
def blockStartSite (line trimmed : String) (lines : List String)
    (lineIndex : Nat) : Option IncompleteLine :=
  if reBlockStart trimmed then
    some ⟨lineIndex, .block_start, line, none, getContext lines lineIndex⟩
  else none

/-- The empty-aggregate-body step of `checkIncompleteLine`. -/
def emptyAggSite (line : String) (lines : List String) (lineIndex : Nat) :
    Option IncompleteLine :=
  if reAgg line &&
     (nextLineTrimmed lines lineIndex = "\x7d" ||
      nextLineTrimmed lines lineIndex = "") then
    some ⟨lineIndex, .empty_body, line, none, getContext lines lineIndex⟩
  else none

/-- The fallback classifier's `checkIncompleteLine`: the patterns are
checked in source order and the FIRST match returns (each step is an
early `return` in the source). -/
def checkIncompleteLine (line trimmed : String) (lines : List String)
    (lineIndex : Nat) (languageId : String) : Option IncompleteLine :=
  if reTodoSlash line || reTodoHash line then
    some ⟨lineIndex, .todo_comment, line, none, getContext lines lineIndex⟩
  else
    (promptSiteOf line lineIndex lines).orElse (fun _ =>
    (funcDeclSite line lines lineIndex languageId).orElse (fun _ =>
    (ctrlSite line lines lineIndex).orElse (fun _ =>
    (assignSite line trimmed lines lineIndex).orElse (fun _ =>
    (blockStartSite line trimmed lines lineIndex).orElse (fun _ =>
    emptyAggSite line lines lineIndex)))))

/-- The fallback revision's `ParseResult`. -/
structure ParseResult where
  incompleteSuggestions : List IncompleteLine
deriving DecidableEq

/-- The fallback classifier's `regexParse`: scan every line, skip blank
lines, and collect at most one site per line. -/
def regexParse (text : String) (languageId : String) : ParseResult :=
  let lines := jsSplitLines text
  { incompleteSuggestions :=
      (List.range lines.length).filterMap (fun i =>
        let line := lines.getD i ""
        let trimmed := jsTrim line
        if trimmed.length = 0 then none
        else checkIncompleteLine line trimmed lines i languageId) }

end Fallback

namespace Server

/-- Outcome of the awaited delegated reconciliation call as seen by
`processCompletion`'s try block: either an exception propagates to the
catch, or a string value is returned. -/
inductive MergeCallOutcome where
  | throws
  | returns (s : String)

/-- Outcome of the HTTP layer inside `fetchFormattingCompletion`. -/
inductive HttpOutcome where
  | throwErr (msg : String)
  | notOk (status : Nat)
  | ok (content : Option String)

/-- The server's `fetchFormattingCompletion`: every failure of the HTTP
layer is turned into a string beginning with "Error:" (or the fixed
no-API-key message), and a successful response yields the trimmed message
content, defaulting to the empty string when absent. -/
def fetchFormattingCompletion (hasKey : Bool) (h : HttpOutcome) : String :=
  if !hasKey then "Error: No API key"
  else
    match h with
    | .throwErr m => "Error: " ++ m
    | .notOk status => "Error: " ++ toString status
    | .ok content => jsTrim (content.getD "")

/-- The merging prompt built by `processCompletion` and sent to the
delegated reconciliation call. -/
def mergingPrompt (beforeCursor afterCursor suggestion : String) : String :=
  "Before cursor: \"" ++ beforeCursor ++ "\"\nAfter cursor: \"" ++ afterCursor ++
  "\"\nAI completion: \"" ++ suggestion ++ "\"\n\nWhat to insert at cursor:"

/-- The server's `processCompletion`: build the merging prompt from the
text around the cursor, pose it to the delegated call (modelled as an
oracle from prompt to outcome), and return its result when it is a
non-empty string not beginning with "Error:"; in every other case —
exception, empty result, error result — return the raw suggestion
unchanged. -/
def processCompletion (oracle : String → MergeCallOutcome) (suggestion : String)
    (text : String) (pos : Position) : String :=
  let lines := jsSplitLines text
  let currentLine := lines.getD pos.line ""
  let beforeCursor := takeChars pos.character currentLine
  let afterCursor := dropChars pos.character currentLine
  match oracle (mergingPrompt beforeCursor afterCursor suggestion) with
  | .throws => suggestion
  | .returns merged =>
    if merged ≠ "" ∧ jsStartsWith merged "Error:" = false then merged
    else suggestion

/-- The exact merging prompt `processCompletion` poses to the delegated
call for a given suggestion, document text and position (a statement
helper naming the prompt built inside `processCompletion`). -/
def mergePromptAt (suggestion text : String) (pos : Position) : String :=
  mergingPrompt (takeChars pos.character ((jsSplitLines text).getD pos.line ""))
    (dropChars pos.character ((jsSplitLines text).getD pos.line "")) suggestion

end Server

/-- Largest `k` not exceeding the bound for which the test holds (0 when
none does). -/
def largestK (f : Nat → Bool) : Nat → Nat
  | 0 => 0
  | k + 1 => if f (k + 1) then k + 1 else largestK f k

/-- Modelled from the spec: merge strategy 1, deterministic overlap
stripping — "find the longest suffix of `before` that is a prefix of
`suggestion`; drop that overlapping prefix from `suggestion`.
Symmetrically, find the longest prefix of `after` that is a suffix of the
remaining `suggestion`; drop that overlapping suffix.  Return what
remains."  This strategy is described by the spec but has no counterpart
in the implementation; it is defined here only to state claims C1 and C2
against the code's actual merge step. -/
def stripOverlap (before after suggestion : String) : String :=
  let b := before.toList
  let s := suggestion.toList
  let k1 := largestK (fun k => decide (b.drop (b.length - k) = s.take k))
              (min b.length s.length)
  let s1 := s.drop k1
  let a := after.toList
  let k2 := largestK (fun k => decide (a.take k = s1.drop (s1.length - k)))
              (min a.length s1.length)
  (s1.take (s1.length - k2)).asString

/-- The notion used by claim C3: the innermost function-like ancestor of
the node (the first function-like node on the upward path), tested for an
empty body by the gate's rule. -/
def innermostFunctionAncestorEmpty (text : String) (path : List SNode) : Bool :=
  match path.find? Gate.isFunctionNode with
  | some f =>
    match Gate.getFunctionBody f with
    | some body => Gate.isEmptyBody body text
    | none => false
  | none => false

/-- The scan demanded by claim C7: the first literally-blank line STRICTLY
inside the body's row span. -/
def strictInteriorBlank (lines : List String) (a b : Nat) : Option Nat :=
  (List.range' (a + 1) (b - a - 1)).find? (fun l =>
    (lines.get? l).any (fun s => jsTrim s = ""))

/-- Document with one empty function: the text of `function f() {}` spread
over three lines with a blank interior line. -/
def emptyFnText : String := "function f() \x7b\n\n\x7d"

/-- The body node of the empty function: the `statement_block` spanning the
braces, rows 0 to 2. -/
def emptyFnBody : SNode :=
  .mk "statement_block" true (some "body") 13 17 ⟨0, 13⟩ ⟨2, 1⟩
    [.mk "\x7b" false none 13 14 ⟨0, 13⟩ ⟨0, 14⟩ [],
     .mk "\x7d" false none 16 17 ⟨2, 0⟩ ⟨2, 1⟩ []]

/-- The `function_declaration` node of the empty function. -/
def emptyFnDecl : SNode :=
  .mk "function_declaration" true none 0 17 ⟨0, 0⟩ ⟨2, 1⟩
    [.mk "function" false none 0 8 ⟨0, 0⟩ ⟨0, 8⟩ [],
     .mk "identifier" true (some "name") 9 10 ⟨0, 9⟩ ⟨0, 10⟩ [],
     .mk "formal_parameters" true (some "parameters") 10 12 ⟨0, 10⟩ ⟨0, 12⟩
       [.mk "(" false none 10 11 ⟨0, 10⟩ ⟨0, 11⟩ [],
        .mk ")" false none 11 12 ⟨0, 11⟩ ⟨0, 12⟩ []],
     emptyFnBody]

/-- The parse tree of `emptyFnText`. -/
def emptyFnTree : SNode :=
  .mk "program" true none 0 17 ⟨0, 0⟩ ⟨2, 1⟩ [emptyFnDecl]

/-- Document for the nested-function counterexample: an arrow function with
a NON-empty body sits inside the parameter default of an outer function
whose own body IS empty — `function f(g = (a) => {\n\nx()\n}) {}`. -/
def nestedFnText : String :=
  "function f(g = (a) => \x7b\n\nx()\n\x7d) \x7b\x7d"

/-- The arrow function's body: non-empty (one named statement), rows 0-3. -/
def nestedArrowBody : SNode :=
  .mk "statement_block" true (some "body") 22 30 ⟨0, 22⟩ ⟨3, 1⟩
    [.mk "\x7b" false none 22 23 ⟨0, 22⟩ ⟨0, 23⟩ [],
     .mk "expression_statement" true none 25 28 ⟨2, 0⟩ ⟨2, 3⟩ [],
     .mk "\x7d" false none 29 30 ⟨3, 0⟩ ⟨3, 1⟩ []]

/-- The arrow function nested in the outer function's parameter default. -/
def nestedArrowFn : SNode :=
  .mk "arrow_function" true (some "right") 15 30 ⟨0, 15⟩ ⟨3, 1⟩
    [.mk "formal_parameters" true (some "parameters") 15 18 ⟨0, 15⟩ ⟨0, 18⟩
       [.mk "(" false none 15 16 ⟨0, 15⟩ ⟨0, 16⟩ [],
        .mk "identifier" true none 16 17 ⟨0, 16⟩ ⟨0, 17⟩ [],
        .mk ")" false none 17 18 ⟨0, 17⟩ ⟨0, 18⟩ []],
     .mk "=>" false none 19 21 ⟨0, 19⟩ ⟨0, 21⟩ [],
     nestedArrowBody]

/-- The outer function's parameter list containing the default-valued
parameter `g = (a) => ...`. -/
def nestedOuterParams : SNode :=
  .mk "formal_parameters" true (some "parameters") 10 31 ⟨0, 10⟩ ⟨3, 2⟩
    [.mk "(" false none 10 11 ⟨0, 10⟩ ⟨0, 11⟩ [],
     .mk "assignment_pattern" true none 11 30 ⟨0, 11⟩ ⟨3, 1⟩
       [.mk "identifier" true (some "left") 11 12 ⟨0, 11⟩ ⟨0, 12⟩ [],
        .mk "=" false none 13 14 ⟨0, 13⟩ ⟨0, 14⟩ [],
        nestedArrowFn],
     .mk ")" false none 30 31 ⟨3, 1⟩ ⟨3, 2⟩ []]

/-- The outer function's empty body `{}` on row 3. -/
def nestedOuterBody : SNode :=
  .mk "statement_block" true (some "body") 32 34 ⟨3, 3⟩ ⟨3, 5⟩
    [.mk "\x7b" false none 32 33 ⟨3, 3⟩ ⟨3, 4⟩ [],
     .mk "\x7d" false none 33 34 ⟨3, 4⟩ ⟨3, 5⟩ []]

/-- The parse tree of `nestedFnText`. -/
def nestedFnTree : SNode :=
  .mk "program" true none 0 34 ⟨0, 0⟩ ⟨3, 5⟩
    [.mk "function_declaration" true none 0 34 ⟨0, 0⟩ ⟨3, 5⟩
       [.mk "function" false none 0 8 ⟨0, 0⟩ ⟨0, 8⟩ [],
        .mk "identifier" true (some "name") 9 10 ⟨0, 9⟩ ⟨0, 10⟩ [],
        nestedOuterParams,
        nestedOuterBody]]

/-- A body node with one named statement child, used to separate the two
`isEmptyBody` revisions; its text is `{ x(); }`. -/
def stmtBodyText : String := "\x7b x(); \x7d"

/-- The body node of `stmtBodyText`: braces around one named
`expression_statement`. -/
def stmtBodyNode : SNode :=
  .mk "statement_block" true (some "body") 0 8 ⟨0, 0⟩ ⟨0, 8⟩
    [.mk "\x7b" false none 0 1 ⟨0, 0⟩ ⟨0, 1⟩ [],
     .mk "expression_statement" true none 2 6 ⟨0, 2⟩ ⟨0, 6⟩ [],
     .mk "\x7d" false none 7 8 ⟨0, 7⟩ ⟨0, 8⟩ []]

/-- Document for the zero-width-body counterexample: a Python function
header with nothing after it; error recovery yields a zero-width `block`
starting at the blank row 1. -/
def pyHeaderText : String := "def f():\n"

/-- The zero-width `block` node at row 1, column 0. -/
def pyZeroBlock : SNode :=
  .mk "block" true (some "body") 9 9 ⟨1, 0⟩ ⟨1, 0⟩ []

/-- The `function_definition` node owning the zero-width block. -/
def pyHeaderFn : SNode :=
  .mk "function_definition" true none 0 9 ⟨0, 0⟩ ⟨1, 0⟩
    [.mk "def" false none 0 3 ⟨0, 0⟩ ⟨0, 3⟩ [],
     .mk "identifier" true (some "name") 4 5 ⟨0, 4⟩ ⟨0, 5⟩ [],
     .mk "parameters" true (some "parameters") 5 7 ⟨0, 5⟩ ⟨0, 7⟩ [],
     .mk ":" false none 7 8 ⟨0, 7⟩ ⟨0, 8⟩ [],
     pyZeroBlock]

/-- A comment node whose text both carries a TODO marker and satisfies the
inline-prompt shape. -/
def todoPromptText : String := "// TODO use # markers"

/-- The comment node covering `todoPromptText`. -/
def todoPromptComment : SNode :=
  .mk "comment" true none 0 21 ⟨0, 0⟩ ⟨0, 21⟩ []

/-- A line matching both the slash-slash TODO pattern and the
inline-prompt shape, for the fallback classifier. -/
def todoPromptLine : String := "x = 1 // TODO use # markers"

/-- A line matching both the hash TODO pattern and the inline-prompt
shape. -/
def hashTodoLine : String := "x = 1 # TODO later"

/-- A trivial tree for entry points that ignore it. -/
def trivialTree : SNode := .mk "program" true none 0 0 ⟨0, 0⟩ ⟨0, 0⟩ []

/-- A list is a prefix of itself followed by anything. -/
theorem isPrefixOf_append_self (l r : List Char) : l.isPrefixOf (l ++ r) = true := by
  induction l with
  | nil => simp [List.isPrefixOf]
  | cons a as ih => simp [List.isPrefixOf, ih]

/-- Appending to a string extends it on the right of the same prefix. -/
theorem jsStartsWith_append (p m : String) : jsStartsWith (p ++ m) p = true := by
  unfold jsStartsWith
  have h : (p ++ m).toList = p.toList ++ m.toList := by
    simp [String.toList]
  rw [h]
  exact isPrefixOf_append_self _ _

/-- C1, counterexample.  The claim asserts that the merge step performs
deterministic overlap stripping, so that merge("const fi", "",
"const fibonacci = x") is "bonacci = x" whatever the delegated call does.
With the cursor after `const fi` and a failing delegated call, the code
returns the raw suggestion "const fibonacci = x"; the spec's strategy-1
stripping would have produced "bonacci = x". -/
theorem claim1_counterexample :
    Server.processCompletion (fun _ => .throws) "const fibonacci = x"
        "const fi" ⟨0, 8⟩ = "const fibonacci = x" ∧
    stripOverlap "const fi" "" "const fibonacci = x" = "bonacci = x" ∧
    ("const fibonacci = x" : String) ≠ "bonacci = x" :=
  ⟨by decide, by decide, by decide⟩

/-- C1, amended.  The merge step performs no overlap stripping of its own:
when the delegated reconciliation call on the merging prompt returns a
non-empty string not beginning with "Error:", that string is returned
VERBATIM; when it returns an empty or "Error:"-prefixed string, or
throws, the raw suggestion is returned unchanged. -/
theorem claim1_theorem (oracle : String → Server.MergeCallOutcome)
    (suggestion text : String) (pos : Position) :
    (∀ m : String, oracle (Server.mergePromptAt suggestion text pos) = .returns m →
      m ≠ "" → jsStartsWith m "Error:" = false →
      Server.processCompletion oracle suggestion text pos = m) ∧
    (∀ m : String, oracle (Server.mergePromptAt suggestion text pos) = .returns m →
      m = "" ∨ jsStartsWith m "Error:" = true →
      Server.processCompletion oracle suggestion text pos = suggestion) ∧
    (oracle (Server.mergePromptAt suggestion text pos) = .throws →
      Server.processCompletion oracle suggestion text pos = suggestion) := by
  have hpc : Server.processCompletion oracle suggestion text pos =
      (match oracle (Server.mergePromptAt suggestion text pos) with
       | .throws => suggestion
       | .returns merged =>
         if merged ≠ "" ∧ jsStartsWith merged "Error:" = false then merged
         else suggestion) := rfl
  refine ⟨?_, ?_, ?_⟩
  · intro m hm hne hpre
    rw [hpc, hm]
    simp [hne, hpre]
  · intro m hm hcase
    rw [hpc, hm]
    rcases hcase with hc | hc
    · simp [hc]
    · simp [hc]
  · intro hm
    rw [hpc, hm]

/-- C1, witness: a successful delegated call — the oracle answering
"bonacci = x" (non-empty, not an error string) on the prompt for the
cursor after `const fi` — has its output returned verbatim by the merge
step. -/
theorem claim1_witness :
    ((fun _ => Server.MergeCallOutcome.returns "bonacci = x") :
        String → Server.MergeCallOutcome)
      (Server.mergePromptAt "const fibonacci = x" "const fi" ⟨0, 8⟩) =
      .returns "bonacci = x" ∧
    ("bonacci = x" : String) ≠ "" ∧
    jsStartsWith "bonacci = x" "Error:" = false ∧
    Server.processCompletion (fun _ => .returns "bonacci = x")
      "const fibonacci = x" "const fi" ⟨0, 8⟩ = "bonacci = x" :=
  ⟨rfl, by decide, by decide,
   (claim1_theorem (fun _ => .returns "bonacci = x") "const fibonacci = x"
       "const fi" ⟨0, 8⟩).1 "bonacci = x" rfl (by decide) (by decide)⟩

/-- C2, counterexample.  The claim asserts that on a failed delegated call
the merge falls back to strategy 1's output; the code falls back to the
raw suggestion, which differs from the strategy-1 output whenever an
overlap exists. -/
theorem claim2_counterexample :
    Server.processCompletion (fun _ => .returns "") "const fibonacci = x"
        "const fi" ⟨0, 8⟩ = "const fibonacci = x" ∧
    stripOverlap "const fi" "" "const fibonacci = x" = "bonacci = x" ∧
    ("const fibonacci = x" : String) ≠ "bonacci = x" :=
  ⟨by decide, by decide, by decide⟩

/-- C2, amended.  If the delegated reconciliation call throws, returns an
empty string, or returns an error result (a string beginning with
"Error:"), the merge step still returns a result and never propagates the
failure — but the fallback is the RAW SUGGESTION unchanged, not
strategy 1's output. -/
theorem claim2_theorem (s text : String) (pos : Position) (m : String) :
    Server.processCompletion (fun _ => .throws) s text pos = s ∧
    Server.processCompletion (fun _ => .returns "") s text pos = s ∧
    Server.processCompletion (fun _ => .returns ("Error:" ++ m)) s text pos = s := by
  refine ⟨by simp [Server.processCompletion], by simp [Server.processCompletion], ?_⟩
  simp [Server.processCompletion, jsStartsWith_append]

/-- C5, code-bug evaluation.  A body holding exactly one named
`expression_statement` child (text `{ x(); }`): the batch classifier's
`isEmptyBody` filters for UN-named children and so judges it empty, while
the gate's `isEmptyBody` filters for named children and judges it
non-empty.  The claim that the two predicates agree is right about the
intent (the batch comment says "no meaningful child nodes"), and the batch
revision's inverted `isNamed` test is the slip. -/
theorem claim5_theorem :
    Batch.isEmptyBody stmtBodyNode stmtBodyText = true ∧
    Gate.isEmptyBody stmtBodyNode stmtBodyText = false :=
  ⟨by decide, by decide⟩

/-- C8.  For a language with no registered grammar the gate bypasses all
tree logic: whatever the tree, the text and the position (blank line or
not), it answers shouldSuggest true with the queried line as content and
an empty context, and (being a total function) never fails. -/
theorem claim8_theorem (root : SNode) (text languageId : String) (pos : Position)
    (h : Batch.supportedLanguages.contains languageId = false) :
    Gate.parseForCompletion root text languageId pos =
      { shouldSuggest := true,
        incompleteLine := some (pos.line, (jsSplitLines text).getD pos.line "", "") } := by
  simp only [Gate.parseForCompletion, h]
  simp [Gate.getContext]

/-- C8, witness: a markdown document queried on its blank middle line. -/
theorem claim8_witness :
    Batch.supportedLanguages.contains "markdown" = false ∧
    Gate.parseForCompletion trivialTree "a\n\nb" "markdown" ⟨1, 0⟩ =
      { shouldSuggest := true, incompleteLine := some (1, "", "") } :=
  ⟨by decide,
   (claim8_theorem trivialTree "a\n\nb" "markdown" ⟨1, 0⟩ (by decide)).trans (by decide)⟩

/-- C10.  For a language with no registered grammar the batch `parse`
returns exactly the empty suggestion list: no tree walk and no text-only
scan happens, and no error is raised (the function is total). -/
theorem claim10_theorem (root : SNode) (text languageId : String)
    (h : Batch.supportedLanguages.contains languageId = false) :
    Batch.parse root text languageId = { incompleteSuggestions := [] } := by
  simp only [Batch.parse, h]
  simp

/-- C10, witness: a markdown document full of otherwise-classifiable
lines still yields no suggestions in batch mode. -/
theorem claim10_witness :
    Batch.supportedLanguages.contains "markdown" = false ∧
    Batch.parse trivialTree "x = 1 // TODO use # markers" "markdown" =
      { incompleteSuggestions := [] } :=
  ⟨by decide,
   claim10_theorem trivialTree "x = 1 // TODO use # markers" "markdown" (by decide)⟩

/-- C3, counterexample.  With the cursor on the blank line inside the
body of an arrow function that is NOT empty, nested in the parameter
default of an outer function whose body IS empty, the gate answers
Eligible although the INNERMOST function-like ancestor's body is
non-empty: the upward walk accepts ANY ancestor with an empty body, not
just the innermost one. -/
theorem claim3_counterexample :
    jsTrim (takeChars 0 ((jsSplitLines nestedFnText).getD 1 "")) = "" ∧
    (Gate.parseForCompletion nestedFnTree nestedFnText "javascript"
        ⟨1, 0⟩).shouldSuggest = true ∧
    (Gate.getPath ⟨1, 0⟩ nestedFnTree).any
        (fun p => innermostFunctionAncestorEmpty nestedFnText p) = false :=
  ⟨by decide, by decide, by decide⟩

/-- C3, amended.  For a supported language, at a position whose line text
up to the cursor is empty after trimming, the gate answers Eligible
exactly when a node is found at the position and SOME function-like node
on its upward path (itself included) has a body judged empty; otherwise
the position is skipped. -/
theorem claim3_theorem (root : SNode) (text languageId : String) (pos : Position)
    (hlang : Batch.supportedLanguages.contains languageId = true)
    (hblank : jsTrim (takeChars pos.character ((jsSplitLines text).getD pos.line "")) = "") :
    (Gate.parseForCompletion root text languageId pos).shouldSuggest =
      (Gate.getPath pos root).any (fun p => Gate.isInsideEmptyFunctionBody text p) := by
  have hskip : Gate.shouldSkipCompletion root text pos (jsSplitLines text) =
      (match Gate.getPath pos root with
       | some path => if Gate.isInsideEmptyFunctionBody text path then false else true
       | none => true) := by
    unfold Gate.shouldSkipCompletion
    simp only [hblank]
    simp
  unfold Gate.parseForCompletion
  simp only [hlang, Bool.not_true]
  rw [hskip]
  cases hp : Gate.getPath pos root with
  | none => simp [Option.any]
  | some path =>
    by_cases hin : Gate.isInsideEmptyFunctionBody text path
    · simp [Option.any, hin]
    · simp [Option.any, hin]

/-- C3, witness: the cursor on the sole blank line of `function f() {}`
written across three lines is Eligible, and the amended rule applies. -/
theorem claim3_witness :
    Batch.supportedLanguages.contains "javascript" = true ∧
    jsTrim (takeChars 0 ((jsSplitLines emptyFnText).getD 1 "")) = "" ∧
    (Gate.parseForCompletion emptyFnTree emptyFnText "javascript"
        ⟨1, 0⟩).shouldSuggest =
      (Gate.getPath ⟨1, 0⟩ emptyFnTree).any
        (fun p => Gate.isInsideEmptyFunctionBody emptyFnText p) ∧
    (Gate.parseForCompletion emptyFnTree emptyFnText "javascript"
        ⟨1, 0⟩).shouldSuggest = true :=
  ⟨by decide, by decide,
   claim3_theorem emptyFnTree emptyFnText "javascript" ⟨1, 0⟩ (by decide) (by decide),
   by decide⟩

/-- Shape of the batch prompt check: empty, or one prompt-typed site at the
node's start row. -/
theorem promptCheckNode_shape (x : String) (row : Nat) (lines : List String) :
    Batch.promptCheckNode x row lines = [] ∨
    ∃ p, Batch.promptCheckNode x row lines =
      [⟨row, .prompt, lines.getD row "", some p, Batch.getContext lines row⟩] := by
  unfold Batch.promptCheckNode
  split
  · split
    · dsimp only
      split
      · right; exact ⟨_, rfl⟩
      · left; rfl
    · left; rfl
  · left; rfl

/-- Shape of the batch TODO check: empty, or one todo-typed site at the
node's start row. -/
theorem todoCheckNode_shape (ty x : String) (row : Nat) (lines : List String) :
    Batch.todoCheckNode ty x row lines = [] ∨
    Batch.todoCheckNode ty x row lines =
      [⟨row, .todo_comment, lines.getD row "", none, Batch.getContext lines row⟩] := by
  unfold Batch.todoCheckNode
  split
  · right; rfl
  · left; rfl

/-- Shape of the batch empty-body check: empty, or one empty-body-typed
site at a row whose line exists and trims blank. -/
theorem emptyBodyCheckNode_shape (text : String) (lines : List String)
    (languageId : String) (n : SNode) :
    Batch.emptyBodyCheckNode text lines languageId n = [] ∨
    ∃ l, (lines.get? l).any (fun s => jsTrim s = "") = true ∧
      Batch.emptyBodyCheckNode text lines languageId n =
        [⟨l, .empty_body, lines.getD l "", none, Batch.getContext lines l⟩] := by
  unfold Batch.emptyBodyCheckNode
  split
  · split
    · split
      · split
        · next l heq =>
          right
          refine ⟨l, ?_, rfl⟩
          have := List.find?_some heq
          simpa using this
        · left; rfl
      · left; rfl
    · left; rfl
  · left; rfl

/-- Shape of the batch control-flow check. -/
theorem controlFlowCheckNode_shape (languageId : String) (n : SNode) (row : Nat)
    (lines : List String) :
    Batch.controlFlowCheckNode languageId n row lines = [] ∨
    Batch.controlFlowCheckNode languageId n row lines =
      [⟨row, .control_flow, lines.getD row "", none, Batch.getContext lines row⟩] := by
  unfold Batch.controlFlowCheckNode
  split
  · right; rfl
  · left; rfl

/-- Shape of the batch assignment check. -/
theorem assignmentCheckNode_shape (languageId : String) (n : SNode) (x : String)
    (row : Nat) (lines : List String) :
    Batch.assignmentCheckNode languageId n x row lines = [] ∨
    Batch.assignmentCheckNode languageId n x row lines =
      [⟨row, .assignment, lines.getD row "", none, Batch.getContext lines row⟩] := by
  unfold Batch.assignmentCheckNode
  split
  · right; rfl
  · left; rfl

/-- C4, counterexample.  The line `x = 1 // TODO use # markers` satisfies
both the TODO pattern and the inline-prompt conditions, yet the text-only
fallback returns only the single TODO site: its patterns are checked with
an early exit, so one line never yields several sites there. -/
theorem claim4_counterexample :
    Fallback.checkIncompleteLine todoPromptLine (jsTrim todoPromptLine)
        [todoPromptLine] 0 "javascript" =
      some ⟨0, .todo_comment, todoPromptLine, none,
        Fallback.getContext [todoPromptLine] 0⟩ ∧
    (Fallback.promptSiteOf todoPromptLine 0 [todoPromptLine]).isSome = true :=
  ⟨by decide, by decide⟩

/-- C4, amended.  The TREE-BASED classifier evaluates its predicates
independently with no early exit — a comment node that also satisfies the
prompt conditions yields both a prompt site and a todo site, at the same
line, with no deduplication.  The TEXT-ONLY fallback instead checks its
patterns in a fixed priority order and returns at most one site per line:
whenever the TODO pattern matches, the TODO site is the whole answer. -/
theorem claim4_theorem :
    (∀ (text : String) (lines : List String) (languageId : String) (n : SNode),
      Batch.promptCheckNode (substrChars text n.startIndex n.endIndex)
          n.startPosition.row lines ≠ [] →
      n.type = "comment" →
      todoRe (substrChars text n.startIndex n.endIndex) = true →
      ((Batch.nodeChecks text lines languageId n).any
          (fun s => decide (s.type = .prompt))) = true ∧
      ((Batch.nodeChecks text lines languageId n).any
          (fun s => decide (s.type = .todo_comment))) = true) ∧
    (∀ (line trimmed : String) (lines : List String) (i : Nat) (languageId : String),
      (Fallback.reTodoSlash line || Fallback.reTodoHash line) = true →
      Fallback.checkIncompleteLine line trimmed lines i languageId =
        some ⟨i, .todo_comment, line, none, Fallback.getContext lines i⟩) := by
  constructor
  · intro text lines languageId n h1 h2 h3
    constructor
    · rcases promptCheckNode_shape (substrChars text n.startIndex n.endIndex)
          n.startPosition.row lines with he | ⟨p, he⟩
      · exact absurd he h1
      · unfold Batch.nodeChecks
        simp [List.any_append, he]
    · unfold Batch.nodeChecks Batch.todoCheckNode
      simp [List.any_append, h2, h3]
  · intro line trimmed lines i languageId htodo
    unfold Fallback.checkIncompleteLine
    simp [htodo]

/-- C4, witness: the comment `// TODO use # markers` triggers both checks
in the tree-based classifier, and the same text as a fallback line yields
exactly the TODO site. -/
theorem claim4_witness :
    Batch.promptCheckNode (substrChars todoPromptText todoPromptComment.startIndex
        todoPromptComment.endIndex) todoPromptComment.startPosition.row
      [todoPromptText] ≠ [] ∧
    todoPromptComment.type = "comment" ∧
    todoRe (substrChars todoPromptText todoPromptComment.startIndex
      todoPromptComment.endIndex) = true ∧
    ((Batch.nodeChecks todoPromptText [todoPromptText] "javascript"
        todoPromptComment).any (fun s => decide (s.type = .prompt))) = true ∧
    ((Batch.nodeChecks todoPromptText [todoPromptText] "javascript"
        todoPromptComment).any (fun s => decide (s.type = .todo_comment))) = true ∧
    Fallback.checkIncompleteLine todoPromptLine (jsTrim todoPromptLine)
        [todoPromptLine] 0 "javascript" =
      some ⟨0, .todo_comment, todoPromptLine, none,
        Fallback.getContext [todoPromptLine] 0⟩ :=
  ⟨by decide, by decide, by decide,
   (claim4_theorem.1 todoPromptText [todoPromptText] "javascript" todoPromptComment
     (by decide) (by decide) (by decide)).1,
   (claim4_theorem.1 todoPromptText [todoPromptText] "javascript" todoPromptComment
     (by decide) (by decide) (by decide)).2,
   claim4_theorem.2 todoPromptLine (jsTrim todoPromptLine) [todoPromptLine] 0
     "javascript" (by decide)⟩

/-- Shape of the fallback prompt step: none, or one prompt-typed site. -/
theorem promptSiteOf_shape (line : String) (i : Nat) (lines : List String) :
    Fallback.promptSiteOf line i lines = none ∨
    ∃ p, Fallback.promptSiteOf line i lines =
      some ⟨i, .prompt, line, some p, Fallback.getContext lines i⟩ := by
  unfold Fallback.promptSiteOf
  split
  · split
    · dsimp only
      split
      · right; exact ⟨_, rfl⟩
      · left; rfl
    · left; rfl
  · left; rfl

/-- Shape of the fallback function-declaration step. -/
theorem funcDeclSite_shape (line : String) (lines : List String) (i : Nat)
    (languageId : String) :
    Fallback.funcDeclSite line lines i languageId = none ∨
    Fallback.funcDeclSite line lines i languageId =
      some ⟨i, .function_declaration, line, none, Fallback.getContext lines i⟩ := by
  unfold Fallback.funcDeclSite
  split
  · right; rfl
  · left; rfl

/-- Shape of the fallback control-flow step. -/
theorem ctrlSite_shape (line : String) (lines : List String) (i : Nat) :
    Fallback.ctrlSite line lines i = none ∨
    Fallback.ctrlSite line lines i =
      some ⟨i, .control_flow, line, none, Fallback.getContext lines i⟩ := by
  unfold Fallback.ctrlSite
  split
  · right; rfl
  · left; rfl

/-- Shape of the fallback assignment step. -/
theorem assignSite_shape (line trimmed : String) (lines : List String) (i : Nat) :
    Fallback.assignSite line trimmed lines i = none ∨
    Fallback.assignSite line trimmed lines i =
      some ⟨i, .assignment, line, none, Fallback.getContext lines i⟩ := by
  unfold Fallback.assignSite
  split
  · right; rfl
  · left; rfl

/-- Shape of the fallback block-start step. -/
theorem blockStartSite_shape (line trimmed : String) (lines : List String) (i : Nat) :
    Fallback.blockStartSite line trimmed lines i = none ∨
    Fallback.blockStartSite line trimmed lines i =
      some ⟨i, .block_start, line, none, Fallback.getContext lines i⟩ := by
  unfold Fallback.blockStartSite
  split
  · right; rfl
  · left; rfl

/-- Shape of the fallback empty-aggregate step. -/
theorem emptyAggSite_shape (line : String) (lines : List String) (i : Nat) :
    Fallback.emptyAggSite line lines i = none ∨
    Fallback.emptyAggSite line lines i =
      some ⟨i, .empty_body, line, none, Fallback.getContext lines i⟩ := by
  unfold Fallback.emptyAggSite
  split
  · right; rfl
  · left; rfl

/-- C6, counterexample.  The line `x = 1 # TODO later` contains the marker
not as its first non-whitespace character and has a non-empty trimmed
remainder, so the claim demands a NaturalLanguagePrompt site with that
remainder; the classifier instead returns a TodoComment site, because the
TODO pattern is checked first and exits early. -/
theorem claim6_counterexample :
    Fallback.checkIncompleteLine hashTodoLine (jsTrim hashTodoLine)
        [hashTodoLine] 0 "python" =
      some ⟨0, .todo_comment, hashTodoLine, none,
        Fallback.getContext [hashTodoLine] 0⟩ ∧
    jsIncludesChar hashTodoLine '#' = true ∧
    jsStartsWith (jsTrim hashTodoLine) "#" = false ∧
    (jsTrim (dropChars ((hashTodoLine.toList.findIdx?
        (fun c => c = '#')).getD 0 + 1) hashTodoLine)).length > 0 :=
  ⟨by decide, by decide, by decide, by decide⟩

/-- C6, amended.  In the text-only fallback a NaturalLanguagePrompt site is
emitted exactly when the TODO pattern does NOT match the line and the
prompt step fires (marker present, not the first non-whitespace character,
non-empty trimmed remainder, which becomes the promptText); the tree-based
classifier applies the same test to each NODE's text and emits at the
node's start row, independently of the other predicates. -/
theorem claim6_theorem :
    (∀ (line trimmed : String) (lines : List String) (i : Nat) (languageId : String),
      (Fallback.checkIncompleteLine line trimmed lines i languageId).filter
          (fun s => decide (s.type = .prompt)) =
        if Fallback.reTodoSlash line || Fallback.reTodoHash line then none
        else Fallback.promptSiteOf line i lines) ∧
    (∀ (text : String) (lines : List String) (languageId : String) (n : SNode),
      (Batch.nodeChecks text lines languageId n).filter
          (fun s => decide (s.type = .prompt)) =
        Batch.promptCheckNode (substrChars text n.startIndex n.endIndex)
          n.startPosition.row lines) := by
  constructor
  · intro line trimmed lines i languageId
    unfold Fallback.checkIncompleteLine
    split
    next htodo =>
      simp [Option.filter]
    next htodo =>
      rcases promptSiteOf_shape line i lines with hp | ⟨p, hp⟩ <;> rw [hp]
      · simp only [Option.orElse]
        rcases funcDeclSite_shape line lines i languageId with hf | hf <;> rw [hf] <;>
          simp only [Option.orElse]
        · rcases ctrlSite_shape line lines i with hc | hc <;> rw [hc] <;>
            simp only [Option.orElse]
          · rcases assignSite_shape line trimmed lines i with ha | ha <;> rw [ha] <;>
              simp only [Option.orElse]
            · rcases blockStartSite_shape line trimmed lines i with hb | hb <;>
                rw [hb] <;> simp only [Option.orElse]
              · rcases emptyAggSite_shape line lines i with hg | hg <;> rw [hg]
                · simp [Option.filter]
                · simp [Option.filter]
              · simp [Option.filter]
            · simp [Option.filter]
          · simp [Option.filter]
        · simp [Option.filter]
      · simp [Option.orElse, Option.filter]
  · intro text lines languageId n
    unfold Batch.nodeChecks
    rw [List.filter_append, List.filter_append, List.filter_append, List.filter_append]
    have hp : (Batch.promptCheckNode (substrChars text n.startIndex n.endIndex)
        n.startPosition.row lines).filter (fun s => decide (s.type = .prompt)) =
        Batch.promptCheckNode (substrChars text n.startIndex n.endIndex)
          n.startPosition.row lines := by
      rcases promptCheckNode_shape (substrChars text n.startIndex n.endIndex)
          n.startPosition.row lines with he | ⟨p, he⟩ <;> rw [he] <;> simp
    have ht : (Batch.todoCheckNode n.type (substrChars text n.startIndex n.endIndex)
        n.startPosition.row lines).filter (fun s => decide (s.type = .prompt)) = [] := by
      rcases todoCheckNode_shape n.type (substrChars text n.startIndex n.endIndex)
          n.startPosition.row lines with he | he <;> rw [he] <;> simp
    have he2 : (Batch.emptyBodyCheckNode text lines languageId n).filter
        (fun s => decide (s.type = .prompt)) = [] := by
      rcases emptyBodyCheckNode_shape text lines languageId n with he | ⟨l, _, he⟩ <;>
        rw [he] <;> simp
    have hc : (Batch.controlFlowCheckNode languageId n n.startPosition.row
        lines).filter (fun s => decide (s.type = .prompt)) = [] := by
      rcases controlFlowCheckNode_shape languageId n n.startPosition.row lines
          with he | he <;> rw [he] <;> simp
    have ha : (Batch.assignmentCheckNode languageId n
        (substrChars text n.startIndex n.endIndex) n.startPosition.row
        lines).filter (fun s => decide (s.type = .prompt)) = [] := by
      rcases assignmentCheckNode_shape languageId n
          (substrChars text n.startIndex n.endIndex) n.startPosition.row lines
          with he | he <;> rw [he] <;> simp
    rw [hp, ht, he2, hc, ha]
    simp

/-- Dropping a final element on which the predicate fails does not change
the result of a find over a contiguous range. -/
theorem find?_range'_concat_none (p : Nat → Bool) (s n : Nat)
    (h : p (s + n) = false) :
    List.find? p (List.range' s (n + 1)) = List.find? p (List.range' s n) := by
  rw [List.range'_concat, List.find?_append]
  have hsingle : List.find? p [s + 1 * n] = none := by
    rw [List.find?_cons]
    have hbeta : p (s + 1 * n) = false := by rw [Nat.one_mul]; exact h
    simp only [hbeta]
    rfl
  rw [hsingle]
  cases List.find? p (List.range' s n) <;> rfl

/-- When the body's start and end rows are not blank, the source's
INCLUSIVE scan of the body rows agrees with the claim's STRICT interior
scan. -/
theorem firstBlankRow_eq_strict (lines : List String) (a b : Nat) (hab : a ≤ b)
    (ha : ((lines.get? a).any (fun s => jsTrim s = "")) = false)
    (hb : ((lines.get? b).any (fun s => jsTrim s = "")) = false) :
    Batch.firstBlankRow lines a b = strictInteriorBlank lines a b := by
  unfold Batch.firstBlankRow strictInteriorBlank
  have h1 : b + 1 - a = (b - a) + 1 := by omega
  rw [h1, List.range'_succ]
  rw [List.find?_cons]
  simp only [ha]
  rcases Nat.eq_or_lt_of_le hab with rfl | hlt
  · simp [Nat.sub_self]
  · have h2 : b - a = (b - a - 1) + 1 := by omega
    have harg : (fun l => (lines.get? l).any (fun s => jsTrim s = ""))
        (a + 1 + (b - a - 1)) = false := by
      have hab2 : a + 1 + (b - a - 1) = b := by omega
      simp only [hab2]
      exact hb
    conv_lhs => rw [h2]
    exact find?_range'_concat_none _ _ _ harg

/-- C7, counterexample.  A zero-width body (Python error recovery for a
function header with no body) starting at a blank row: the body is judged
empty and the scan emits a site AT the body's start row, although no blank
line exists strictly inside the (empty) interior of the span, where the
claim says no site may be emitted by this path. -/
theorem claim7_counterexample :
    Batch.isFunctionNode pyHeaderFn "python" = true ∧
    Batch.isEmptyBody pyZeroBlock pyHeaderText = true ∧
    pyZeroBlock.startPosition.row = 1 ∧
    pyZeroBlock.endPosition.row = 1 ∧
    (Batch.nodeChecks pyHeaderText (jsSplitLines pyHeaderText) "python"
        pyHeaderFn).filter (fun s => decide (s.type = .empty_body)) =
      [⟨1, .empty_body, "", none, Batch.getContext (jsSplitLines pyHeaderText) 1⟩] ∧
    strictInteriorBlank (jsSplitLines pyHeaderText) 1 1 = none :=
  ⟨by decide, by decide, by decide, by decide, by decide, by decide⟩

/-- C7, amended.  For a function-like node whose body is judged empty, and
whose body start and end rows are not themselves blank lines (true of
every body whose delimiters occupy its boundary rows), the EmptyBody site
is placed at the first literally-blank line strictly inside the body span,
and no site is emitted by this path when no such line exists; in general
the code scans the inclusive row range of the body, start and end rows
included. -/
theorem claim7_theorem (text : String) (lines : List String) (languageId : String)
    (n body : SNode)
    (h1 : Batch.isFunctionNode n languageId = true)
    (h2 : Batch.getFunctionBody n languageId = some body)
    (h3 : Batch.isEmptyBody body text = true)
    (hab : body.startPosition.row ≤ body.endPosition.row)
    (ha : ((lines.get? body.startPosition.row).any (fun s => jsTrim s = "")) = false)
    (hb : ((lines.get? body.endPosition.row).any (fun s => jsTrim s = "")) = false) :
    (Batch.nodeChecks text lines languageId n).filter
        (fun s => decide (s.type = .empty_body)) =
      (match strictInteriorBlank lines body.startPosition.row body.endPosition.row with
       | some l => [⟨l, .empty_body, lines.getD l "", none, Batch.getContext lines l⟩]
       | none => []) := by
  unfold Batch.nodeChecks
  rw [List.filter_append, List.filter_append, List.filter_append, List.filter_append]
  have hp : (Batch.promptCheckNode (substrChars text n.startIndex n.endIndex)
      n.startPosition.row lines).filter (fun s => decide (s.type = .empty_body)) = [] := by
    rcases promptCheckNode_shape (substrChars text n.startIndex n.endIndex)
        n.startPosition.row lines with he | ⟨p, he⟩ <;> rw [he] <;> simp
  have ht : (Batch.todoCheckNode n.type (substrChars text n.startIndex n.endIndex)
      n.startPosition.row lines).filter (fun s => decide (s.type = .empty_body)) = [] := by
    rcases todoCheckNode_shape n.type (substrChars text n.startIndex n.endIndex)
        n.startPosition.row lines with he | he <;> rw [he] <;> simp
  have hc : (Batch.controlFlowCheckNode languageId n n.startPosition.row
      lines).filter (fun s => decide (s.type = .empty_body)) = [] := by
    rcases controlFlowCheckNode_shape languageId n n.startPosition.row lines
        with he | he <;> rw [he] <;> simp
  have hA : (Batch.assignmentCheckNode languageId n
      (substrChars text n.startIndex n.endIndex) n.startPosition.row
      lines).filter (fun s => decide (s.type = .empty_body)) = [] := by
    rcases assignmentCheckNode_shape languageId n
        (substrChars text n.startIndex n.endIndex) n.startPosition.row lines
        with he | he <;> rw [he] <;> simp
  have hE : Batch.emptyBodyCheckNode text lines languageId n =
      (match Batch.firstBlankRow lines body.startPosition.row body.endPosition.row with
       | some l => [⟨l, .empty_body, lines.getD l "", none, Batch.getContext lines l⟩]
       | none => []) := by
    unfold Batch.emptyBodyCheckNode
    simp only [h1, if_true]
    rw [h2]
    simp only [h3, if_true]
  rw [hp, ht, hc, hA, hE, firstBlankRow_eq_strict lines _ _ hab ha hb]
  cases strictInteriorBlank lines body.startPosition.row body.endPosition.row <;> simp

/-- C7, witness: the three-line `function f() {}` has its body braces on
rows 0 and 2 (both non-blank) and a blank row 1 strictly inside; the
classifier emits exactly the EmptyBody site at row 1. -/
theorem claim7_witness :
    Batch.isFunctionNode emptyFnDecl "javascript" = true ∧
    Batch.isEmptyBody emptyFnBody emptyFnText = true ∧
    ((jsSplitLines emptyFnText).get? emptyFnBody.startPosition.row).any
      (fun s => jsTrim s = "") = false ∧
    ((jsSplitLines emptyFnText).get? emptyFnBody.endPosition.row).any
      (fun s => jsTrim s = "") = false ∧
    (Batch.nodeChecks emptyFnText (jsSplitLines emptyFnText) "javascript"
        emptyFnDecl).filter (fun s => decide (s.type = .empty_body)) =
      [⟨1, .empty_body, "", none, Batch.getContext (jsSplitLines emptyFnText) 1⟩] ∧
    strictInteriorBlank (jsSplitLines emptyFnText) emptyFnBody.startPosition.row
      emptyFnBody.endPosition.row = some 1 :=
  ⟨by decide, by decide, by decide, by decide,
   (claim7_theorem emptyFnText (jsSplitLines emptyFnText) "javascript"
     emptyFnDecl emptyFnBody (by decide) (by rfl) (by decide) (by decide)
     (by decide) (by decide)).trans (by decide),
   by decide⟩

mutual
/-- The pre-order site accumulation is the concatenation of the per-node
checks over the pre-order node list. -/
theorem collectSites_eq_flatMap (text : String) (lines : List String)
    (languageId : String) (n : SNode) :
    Batch.collectSites text lines languageId n =
      (allNodes n).flatMap (Batch.nodeChecks text lines languageId) := by
  cases n with
  | mk t nm f si ei sp ep cs =>
    rw [Batch.collectSites, allNodes, List.flatMap_cons,
      collectSitesList_eq_flatMap text lines languageId cs]
/-- Forest version of `collectSites_eq_flatMap`. -/
theorem collectSitesList_eq_flatMap (text : String) (lines : List String)
    (languageId : String) (ns : List SNode) :
    Batch.collectSitesList text lines languageId ns =
      (allNodesList ns).flatMap (Batch.nodeChecks text lines languageId) := by
  cases ns with
  | nil => rfl
  | cons c cs =>
    rw [Batch.collectSitesList, allNodesList, List.flatMap_append,
      collectSites_eq_flatMap text lines languageId c,
      collectSitesList_eq_flatMap text lines languageId cs]
end

/-- Every site contributed by one node's checks lies at the node's start
row or at a row whose line exists in the document. -/
theorem nodeChecks_line_lt (text : String) (lines : List String)
    (languageId : String) (n : SNode)
    (hn : n.startPosition.row < lines.length) :
    ∀ s ∈ Batch.nodeChecks text lines languageId n, s.line < lines.length := by
  intro s hs
  simp only [Batch.nodeChecks, List.mem_append] at hs
  rcases hs with ((((h | h) | h) | h) | h)
  · rcases promptCheckNode_shape (substrChars text n.startIndex n.endIndex)
        n.startPosition.row lines with he | ⟨p, he⟩ <;> rw [he] at h <;> simp at h
    subst h
    exact hn
  · rcases todoCheckNode_shape n.type (substrChars text n.startIndex n.endIndex)
        n.startPosition.row lines with he | he <;> rw [he] at h <;> simp at h
    subst h
    exact hn
  · rcases emptyBodyCheckNode_shape text lines languageId n with he | ⟨l, hl, he⟩ <;>
      rw [he] at h <;> simp at h
    subst h
    show l < lines.length
    cases hg : lines.get? l with
    | none =>
      rw [hg] at hl
      simp [Option.any] at hl
    | some v =>
      by_contra hge
      have hnone : lines.get? l = none := List.get?_eq_none.mpr (Nat.le_of_not_lt hge)
      rw [hnone] at hg
      cases hg
  · rcases controlFlowCheckNode_shape languageId n n.startPosition.row lines
        with he | he <;> rw [he] at h <;> simp at h
    subst h
    exact hn
  · rcases assignmentCheckNode_shape languageId n
        (substrChars text n.startIndex n.endIndex) n.startPosition.row lines
        with he | he <;> rw [he] at h <;> simp at h
    subst h
    exact hn

/-- Every site returned by the fallback's per-line check lies at the
queried line index. -/
theorem checkIncompleteLine_line (line trimmed : String) (lines : List String)
    (i : Nat) (languageId : String) (s : IncompleteLine)
    (h : Fallback.checkIncompleteLine line trimmed lines i languageId = some s) :
    s.line = i := by
  unfold Fallback.checkIncompleteLine at h
  split at h
  · cases h
    rfl
  · rcases promptSiteOf_shape line i lines with hp | ⟨p, hp⟩ <;> rw [hp] at h <;>
      simp only [Option.orElse] at h
    · rcases funcDeclSite_shape line lines i languageId with hf | hf <;>
        rw [hf] at h <;> simp only [Option.orElse] at h
      · rcases ctrlSite_shape line lines i with hc | hc <;> rw [hc] at h <;>
          simp only [Option.orElse] at h
        · rcases assignSite_shape line trimmed lines i with ha | ha <;>
            rw [ha] at h <;> simp only [Option.orElse] at h
          · rcases blockStartSite_shape line trimmed lines i with hb | hb <;>
              rw [hb] at h <;> simp only [Option.orElse] at h
            · rcases emptyAggSite_shape line lines i with hg | hg <;> rw [hg] at h
              · cases h
              · cases h
                rfl
            · cases h
              rfl
          · cases h
            rfl
        · cases h
          rfl
      · cases h
        rfl
    · cases h
      rfl

/-- C9.  Whenever the tree's node rows all lie inside the document (true of
any tree parsed from the document), every site of the tree-based
classification has a valid line index; and every site of the text-only
fallback classification has a valid line index unconditionally. -/
theorem claim9_theorem (root : SNode) (text languageId : String)
    (h : (allNodes root).all
      (fun m => decide (m.startPosition.row < (jsSplitLines text).length)) = true) :
    ((Batch.findIncompletePatterns root text languageId).all
        (fun s => decide (s.line < (jsSplitLines text).length)) = true) ∧
    ∀ (t lang : String),
      ((Fallback.regexParse t lang).incompleteSuggestions.all
        (fun s => decide (s.line < (jsSplitLines t).length)) = true) := by
  constructor
  · rw [List.all_eq_true]
    intro s hs
    unfold Batch.findIncompletePatterns at hs
    rw [collectSites_eq_flatMap] at hs
    rw [List.mem_flatMap] at hs
    obtain ⟨m, hm, hsm⟩ := hs
    have hrow := List.all_eq_true.mp h m hm
    simp only [decide_eq_true_eq] at hrow ⊢
    exact nodeChecks_line_lt text (jsSplitLines text) languageId m hrow s hsm
  · intro t lang
    rw [List.all_eq_true]
    intro s hs
    unfold Fallback.regexParse at hs
    simp only [List.mem_filterMap] at hs
    obtain ⟨i, hi, hfi⟩ := hs
    rw [List.mem_range] at hi
    simp only [decide_eq_true_eq]
    split at hfi
    · cases hfi
    · rw [checkIncompleteLine_line _ _ _ _ _ _ hfi]
      exact hi

/-- C9, witness: the three-line empty-function document, whose tree rows
are inside the document, yields only valid line indices. -/
theorem claim9_witness :
    ((allNodes emptyFnTree).all
      (fun m => decide (m.startPosition.row < (jsSplitLines emptyFnText).length)) = true) ∧
    ((Batch.findIncompletePatterns emptyFnTree emptyFnText "javascript").all
      (fun s => decide (s.line < (jsSplitLines emptyFnText).length)) = true) ∧
    ((Fallback.regexParse todoPromptLine "javascript").incompleteSuggestions.all
      (fun s => decide (s.line < (jsSplitLines todoPromptLine).length)) = true) :=
  ⟨by decide,
   (claim9_theorem emptyFnTree emptyFnText "javascript" (by decide)).1,
   (claim9_theorem emptyFnTree emptyFnText "javascript" (by decide)).2
     todoPromptLine "javascript"⟩
